import Mathlib

/-! Formal model of the exposure-bracket selection and HDR-script synthesis
core of the photo-processing repository (HDR_from_raw.py, create_HDR_script.py,
postprocess_photos.py, unused_code.py).

Python strings are modelled as `List Char` (Python compares strings by code
points, as `Char` does).  The float arithmetic of the histogram statistics is
modelled exactly over `ℚ`.  External processes (dcraw, exiftool, PIL decoding,
the filesystem) are modelled as explicit capability inputs or as emitted
command traces. -/

/-- Python str.lstrip(chars): drop the longest leading run of characters that
belong to the character SET of `chars` (this is Python semantics: `chars` is a
set of characters, not a prefix). -/
def pyLstrip (s : List Char) (chars : List Char) : List Char :=
  s.dropWhile (fun c => chars.contains c)

/-- The characters Python str.strip() removes by default (ASCII whitespace). -/
def pyIsSpace (c : Char) : Bool :=
  c = ' ' || c = '\t' || c = '\n' || c = '\r' || c = '\x0b' || c = '\x0c'

/-- Python str.strip(): remove leading and trailing whitespace. -/
def pyStrip (s : List Char) : List Char :=
  ((s.dropWhile pyIsSpace).reverse.dropWhile pyIsSpace).reverse

/-- Python str.rfind(c): index of the last occurrence of `c`, or -1. -/
def lastIdx (s : List Char) (c : Char) : Int :=
  match s with
  | [] => -1
  | a :: rest =>
    let r := lastIdx rest c
    if r ≥ 0 then r + 1 else if a = c then 0 else -1

/-- posixpath.splitext(p)[0]: split off the extension at the last dot of the
basename, unless every character of the basename before that dot is a dot. -/
def pySplitextStem (p : List Char) : List Char :=
  let sepIndex := lastIdx p '/'
  let dotIndex := lastIdx p '.'
  if (decide (sepIndex < dotIndex) &&
      (List.range p.length).any (fun j =>
        decide (sepIndex < (j : Int)) && decide ((j : Int) < dotIndex) &&
          decide (p.getD j '.' ≠ '.')))
  then p.take dotIndex.toNat else p

/-- posixpath.split(p)[0]: everything up to the last slash, with trailing
slashes stripped unless the head is all slashes. -/
def pyPathSplitHead (p : List Char) : List Char :=
  let i := lastIdx p '/' + 1
  let head := p.take i.toNat
  if !head.isEmpty && head.any (fun c => c != '/')
  then (head.reverse.dropWhile (fun c => c = '/')).reverse else head

/-- The single-quote character (written numerically). -/
def sqc : Char := Char.ofNat 39

/-- The characters shlex.quote treats as safe: letters, digits, and `_ @ % + = : , .` slash and dash. -/
def shlexSafeChar (c : Char) : Bool :=
  decide (('a' ≤ c ∧ c ≤ 'z') ∨ ('A' ≤ c ∧ c ≤ 'Z') ∨ ('0' ≤ c ∧ c ≤ '9') ∨
    c = '_' ∨ c = '@' ∨ c = '%' ∨ c = '+' ∨ c = '=' ∨ c = ':' ∨ c = ',' ∨
    c = '.' ∨ c = '/' ∨ c = '-')

/-- Python shlex.quote. -/
def shlexQuote (s : List Char) : List Char :=
  if s.isEmpty then [sqc, sqc]
  else if s.all shlexSafeChar then s
  else [sqc] ++ ((s.map (fun c => if c = sqc then [sqc, '"', sqc, '"', sqc] else [c])).flatten) ++ [sqc]

/-- Python string `<=` (lexicographic by code point). -/
def pyStrLe : List Char → List Char → Bool
  | [], _ => true
  | _ :: _, [] => false
  | a :: as, b :: bs => if a < b then true else if b < a then false else pyStrLe as bs

def pyStrLePr (a b : List Char) : Prop := pyStrLe a b = true

instance : DecidableRel pyStrLePr :=
  fun a b => inferInstanceAs (Decidable (pyStrLe a b = true))

/-- Python sorted() on a list of strings (a stable sort by `<=`). -/
def pySorted (files : List (List Char)) : List (List Char) :=
  List.insertionSort pyStrLePr files

/-! ## Brightness histogram analysis (HDR_from_raw.py lines 72-114) -/

/-- sum(h) / len(h), the mean used for the smoothing threshold. -/
def pyMean (h : List ℚ) : ℚ := h.sum / (h.length : ℚ)

/-- statistics.stdev squared: the sample variance with denominator n - 1. -/
def pySampleVar (h : List ℚ) : ℚ :=
  let m := pyMean h
  (h.map (fun v => (v - m) ^ 2)).sum / ((h.length : ℚ) - 1)

/-- The bucket-keeping test `v > mean - 2 * stdev`, stated without the square
root: `v > m - 2*sqrt S  ↔  m < v ∨ (m - v)² < 4*S` (for `S ≥ 0`); this exact
equivalence is proved below as `keepB_iff_threshold`. -/
def keepB (m S v : ℚ) : Bool :=
  decide (m < v) || decide ((m - v) ^ 2 < 4 * S)

/-- The smoothing step of get_smoothed_image_histogram: every bucket whose
count is not above `mean - 2*stdev` is dropped to zero.  (Decoding the image
and taking its raw 256-bucket histogram is the external PIL capability; this
function takes that histogram as input.) -/
def get_smoothed_image_histogram (h : List ℚ) : List ℚ :=
  let m := pyMean h
  let S := pySampleVar h
  h.map (fun v => if keepB m S v then v else 0)

/-- `clipping_threshold = 144`: if at least half the image data is within this
distance of the relevant edge, the image counts as clipped. -/
def clipping_threshold : ℕ := 144

/-- `sum(histo[(256-clipping_threshold):]) >= sum(histo[:(256-clipping_threshold)])`. -/
def is_right_edge_clipping (histo : List ℚ) : Bool :=
  decide ((histo.take (256 - clipping_threshold)).sum ≤ (histo.drop (256 - clipping_threshold)).sum)

/-- `sum(histo[:clipping_threshold]) >= sum(histo[clipping_threshold:])`. -/
def is_left_edge_clipping (histo : List ℚ) : Bool :=
  decide ((histo.drop clipping_threshold).sum ≤ (histo.take clipping_threshold).sum)

/-! ### Basic sum lemmas -/

lemma sum_take_add_sum_drop (l : List ℚ) (n : ℕ) :
    (l.take n).sum + (l.drop n).sum = l.sum := by
  rw [← List.sum_append, List.take_append_drop]

lemma sum_reverse_take (l : List ℚ) (n : ℕ) :
    (l.reverse.take n).sum = (l.drop (l.length - n)).sum :=
  calc (l.reverse.take n).sum = (l.reverse.take n).reverse.sum := (List.sum_reverse _).symm
    _ = (l.rtake n).sum := by rw [List.rtake_eq_reverse_take_reverse]
    _ = (l.drop (l.length - n)).sum := rfl

lemma sum_reverse_drop (l : List ℚ) (n : ℕ) :
    (l.reverse.drop n).sum = (l.take (l.length - n)).sum :=
  calc (l.reverse.drop n).sum = (l.reverse.drop n).reverse.sum := (List.sum_reverse _).symm
    _ = (l.rdrop n).sum := by rw [List.rdrop_eq_reverse_drop_reverse]
    _ = (l.take (l.length - n)).sum := rfl

/-- C8: for every 256-bucket histogram, right-edge clipping of `h` coincides
with left-edge clipping of the reversed histogram, and both tests are
inclusive (`>=`) at the half-mass boundary: equality of the two zone sums
already counts as clipped. -/
theorem right_left_clipping_dual (h : List ℚ) (hlen : h.length = 256) :
    is_right_edge_clipping h = is_left_edge_clipping h.reverse ∧
      ((h.take 112).sum = (h.drop 112).sum → is_right_edge_clipping h = true) := by
  constructor
  · unfold is_right_edge_clipping is_left_edge_clipping clipping_threshold
    rw [decide_eq_decide]
    have ht : (h.reverse.take 144).sum = (h.drop 112).sum := by
      rw [sum_reverse_take, hlen]
    have hd : (h.reverse.drop 144).sum = (h.take 112).sum := by
      rw [sum_reverse_drop, hlen]
    rw [ht, hd]
  · intro he
    unfold is_right_edge_clipping clipping_threshold
    rw [decide_eq_true_eq]
    norm_num
    rw [he]

/-- Witness for C8 at the concrete all-zero histogram. -/
theorem right_left_clipping_dual_witness :
    (List.replicate 256 (0 : ℚ)).length = 256 ∧
      is_right_edge_clipping (List.replicate 256 (0 : ℚ)) =
        is_left_edge_clipping (List.replicate 256 (0 : ℚ)).reverse :=
  ⟨by rw [List.length_replicate],
    (right_left_clipping_dual (List.replicate 256 (0 : ℚ)) (by rw [List.length_replicate])).1⟩

/-! ## Bracket selection (HDR_from_raw.py lines 34-52 and 117-183) -/

/-- `shifts = range(-5, 6)`: the configured EV range, in ascending order. -/
def shifts : List Int := (List.range 11).map (fun i => (i : Int) - 5)

/-- `("+" if Ev_shift >= 0 else "") + str(Ev_shift) + ".tif"`: the suffix of
the name of an Ev-shifted rendering. -/
def shiftSuffix (Ev_shift : Int) : List Char :=
  (if 0 ≤ Ev_shift then ("+".data) else []) ++ (toString Ev_shift).data ++ (".tif".data)

/-- The name of the Ev-shifted rendering produced by produce_shifted_tonemap:
`HDR_AIS_` + stem + (`+` for shifts >= 0) + str(shift) + `.tif`. -/
def shiftFileName (stem : List Char) (Ev_shift : Int) : List Char :=
  ("HDR_AIS_".data) ++ stem ++ shiftSuffix Ev_shift

/-- One iteration of the downward scan (lines 137-150): seek the darkest
useful image starting from the brightest shift.  The state is the surviving
shift keys of `shift_mappings` (in insertion order, ascending) together with
the `found_beginning` and `found_end` flags. -/
def scan1Step (histo : Int → List ℚ) (st : List Int × Bool × Bool)
    (current_shift : Int) : List Int × Bool × Bool :=
  let h := get_smoothed_image_histogram (histo current_shift)
  match st with
  | (surv, found_beginning, found_end) =>
    if found_end then (surv.erase current_shift, found_beginning, found_end)
    else if found_beginning then
      if is_left_edge_clipping h then (surv.erase current_shift, found_beginning, true)
      else (surv, found_beginning, found_end)
    else (surv, !(is_right_edge_clipping h), found_end)

/-- The downward scan: iterate from max(shifts) down to min(shifts). -/
def scan1 (histo : Int → List ℚ) : List Int :=
  (shifts.reverse.foldl (scan1Step histo) (shifts, false, false)).1

/-- Python min over a nonempty collection. -/
def listMin (x : Int) (xs : List Int) : Int := xs.foldl min x

/-- The integers from `lo` to `hi` inclusive, ascending. -/
def intRange (lo hi : Int) : List Int :=
  (List.range (hi + 1 - lo).toNat).map (fun i => lo + Int.ofNat i)

/-- One iteration of the upward scan (lines 152-165): the mirror image of
`scan1Step` with the two clipping tests swapped. -/
def scan2Step (histo : Int → List ℚ) (st : List Int × Bool × Bool)
    (current_shift : Int) : List Int × Bool × Bool :=
  let h := get_smoothed_image_histogram (histo current_shift)
  match st with
  | (surv, found_beginning, found_end) =>
    if found_end then (surv.erase current_shift, found_beginning, found_end)
    else if found_beginning then
      if is_right_edge_clipping h then (surv.erase current_shift, found_beginning, true)
      else (surv, found_beginning, found_end)
    else (surv, !(is_left_edge_clipping h), found_end)

/-- The upward scan: iterate from min(surviving keys) up to max(shifts) = 5. -/
def scan2 (histo : Int → List ℚ) (surv1 : List Int) : List Int :=
  match surv1 with
  | [] => []
  | x :: xs => ((intRange (listMin x xs) 5).foldl (scan2Step histo) (x :: xs, false, false)).1

/-- massage_file_list (lines 43-52): asserts the selection is non-empty,
raising AssertionError with the documented message otherwise. -/
def massage_file_list {α : Type} (selected_files : List α) : Except String (List α) :=
  if 0 < selected_files.length then Except.ok selected_files
  else Except.error ("ERROR: Unable to create any viable files from raw photo")

/-- The surviving rendered file names after the two scans, in the insertion
(ascending-EV) order of the `shift_mappings` dict. -/
def bracketFileNames (rawfile : List Char) (histo : Int → List ℚ) : List (List Char) :=
  (scan2 histo (scan1 histo)).map (shiftFileName (pySplitextStem rawfile))

/-- Lines 169-177: sort the selection, then move `base_TIFF` (the stem plus
`+0.tif` - note: WITHOUT the HDR_AIS_ prefix) to the front if present; on
ValueError just sort again and let the head be the anchor. -/
def anchorStep (rawfile : List Char) (selected_files : List (List Char)) : List (List Char) :=
  let files_to_merge := pySorted selected_files
  let base_TIFF := pySplitextStem rawfile ++ ("+0.tif".data)
  if base_TIFF ∈ files_to_merge then base_TIFF :: files_to_merge.erase base_TIFF
  else pySorted files_to_merge

/-- The bracket-selection portion of create_HDR_script: scans, the non-empty
assertion, sorting, and the anchor move; returns the ordered list handed to
create_script_from_file_list, or the AssertionError message. -/
def selectBracket (rawfile : List Char) (histo : Int → List ℚ) :
    Except String (List (List Char)) :=
  match massage_file_list (bracketFileNames rawfile histo) with
  | Except.error e => Except.error e
  | Except.ok sel => Except.ok (anchorStep rawfile sel)

/-! ## Pipeline script synthesis (create_HDR_script.py lines 36-114) -/

/-- The process environment of the generator: the filesystem realpath
capability, plus a clock and an entropy source that the source never reads
(they exist in the model precisely so that independence from them is a
provable statement). -/
structure PyEnv where
  realpath : List Char → List Char
  clock : ℕ
  rand : ℕ

/-- Line 61: `os.path.splitext(f)[0].strip().lstrip('HDR_AIS_').strip() + "_HDR.TIFF"`. -/
def hdrOutputBasename (first_file : List Char) : List Char :=
  pyStrip (pyLstrip (pyStrip (pySplitextStem first_file)) ("HDR_AIS_".data)) ++ ("_HDR.TIFF".data)

/-- Lines 64-74: the shebang/comment/cd header of the generated script. -/
def script_header (output_file first_file last_file : List Char) (suppress_align : Bool)
    (wdir : List Char) : List Char :=
  ("#!/usr/bin/env bash\n\n# ".data) ++ output_file ++ (" from ".data) ++ first_file ++
    (" ... ".data) ++ last_file ++ (", ".data) ++
    (if suppress_align then ("assuming pre-aligned images".data) else ("aligning first".data)) ++
    ("\n# This script written by Patrick Mooney".data) ++ [sqc] ++
    ("s create_HDR_script.py script, see\n#     https://github.com/patrick-brian-mooney/photo-processing/\n\nOLDDIR=$(pwd)\ncd ".data) ++
    shlexQuote wdir ++ ("\n".data)

/-- Line 77: the align_image_stack invocation over all quoted inputs. -/
def align_line (files : List (List Char)) : List Char :=
  ("\nalign_image_stack -xyzdivv -a HDR_AIS ".data) ++
    List.intercalate (" ".data) (files.map shlexQuote)

/-- Line 79: the fusion stage; it names no input file, only the quoted output
and the fixed glob `HDR_AIS*tif`. -/
def enfuse_line (output_file : List Char) : List Char :=
  ("\nenfuse --output=".data) ++ shlexQuote output_file ++ (" HDR_AIS*tif".data)

/-- Line 80: convert the fused TIFF to a quality-98 JPG. -/
def convert_line (output_file : List Char) : List Char :=
  ("\nconvert ".data) ++ shlexQuote output_file ++ (" -quality 98 ".data) ++
    shlexQuote (pySplitextStem output_file ++ (".JPG".data))

/-- Line 81: remove the floating-point intermediate. -/
def rm_output_line (output_file : List Char) : List Char :=
  ("\nrm ".data) ++ shlexQuote output_file ++ ("\n\n".data)

/-- Lines 83-86: copy tags from the metadata source, fix orientation, remove
the exiftool backup files. -/
def metadata_block (metadata_source_file output_file : List Char) : List Char :=
  ("exiftool -tagsfromfile ".data) ++ shlexQuote metadata_source_file ++ (" ".data) ++
    shlexQuote (pySplitextStem output_file ++ (".JPG".data)) ++ ("\n".data) ++
    ("exiftool -n -Orientation=1 ".data) ++ shlexQuote (pySplitextStem output_file ++ (".JPG".data)) ++
    ("       # Output of CONVERT is already oriented; correct the JPG orientation\n".data) ++
    ("rm *_original\n".data)

/-- Lines 88-91: delete the originals, or archive them to HDR_components/. -/
def cleanup_line (delete_originals : Bool) (files : List (List Char)) : List Char :=
  if delete_originals then ("\nrm ".data) ++ List.intercalate (" ".data) (files.map shlexQuote)
  else ("\nmv ".data) ++ List.intercalate (" ".data) (files.map shlexQuote) ++ (" HDR_components/".data)

/-- Line 93: restore the original working directory (note the trailing space). -/
def script_footer : List Char := ("\n\ncd \"$OLDDIR\" ".data)

/-- create_script_from_file_list: returns (script text, script file name).
Writing the file, the chmod, and the file_to_move/file_to_delete housekeeping
are filesystem effects that never feed back into the text. -/
def create_script_from_file_list (HDR_input_files : List (List Char))
    (metadata_source_file : Option (List Char)) (delete_originals suppress_align : Bool)
    (env : PyEnv) : List Char × List Char :=
  let first_file := HDR_input_files.headD []
  let output_file := hdrOutputBasename first_file
  let wdir := pyPathSplitHead (env.realpath first_file)
  let the_script :=
    script_header output_file first_file (HDR_input_files.getLastD []) suppress_align wdir ++
    (if suppress_align then [] else align_line HDR_input_files) ++
    enfuse_line output_file ++ convert_line output_file ++ rm_output_line output_file ++
    (match metadata_source_file with
     | some src => metadata_block src output_file
     | none => []) ++
    cleanup_line delete_originals HDR_input_files ++ script_footer
  (the_script, pySplitextStem output_file ++ (".SH".data))

/-! ## The renderer and its external-command trace (HDR_from_raw.py lines
55-69, unused_code.py lines 86-102) -/

/-- One external-process invocation. -/
inductive ExtCall where
  | dcraw (rawfile outfile : List Char) (Ev_shift : Int) (use_darkframe : Bool)
  | exiftool_copy_tags (src dst : List Char)
  | exiftool_set_ISO_Ev (ISO Ev : ℚ) (dst : List Char)
  deriving DecidableEq

/-- produce_shifted_tonemap: renders RAWFILE at brightness 2^EV_SHIFT via
dcraw and returns the output name.  BASE_ISO and BASE_EV are accepted but
never used; the function issues no metadata command. -/
def produce_shifted_tonemap (rawfile : List Char) (base_ISO base_Ev : Option Int)
    (Ev_shift : Int) (darkframe_present : Bool) : List Char × List ExtCall :=
  let outfile := shiftFileName (pySplitextStem rawfile) Ev_shift
  (outfile, [ExtCall.dcraw rawfile outfile Ev_shift darkframe_present])

/-- copy_and_modify_ISO_and_Ev (unused_code.py): derives the synthetic ISO and
Ev (with fallback bases 100 and 8 plus a warning when the original value does
not parse as an int), then copies all tags from the raw and sets the ISO/EV
fields.  Returns (ISO, Ev, ISO-warning, Ev-warning, command trace). -/
def copy_and_modify_ISO_and_Ev (rawfile outfile : List Char)
    (base_ISO base_Ev : Option Int) (Ev_shift : Int) :
    ℚ × ℚ × Bool × Bool × List ExtCall :=
  let ISO : ℚ := match base_ISO with
    | some i => (i : ℚ) * (2 : ℚ) ^ Ev_shift
    | none => 100 * (2 : ℚ) ^ Ev_shift
  let Ev : ℚ := match base_Ev with
    | some e => (e : ℚ) + (Ev_shift : ℚ)
    | none => 8 + (Ev_shift : ℚ)
  (ISO, Ev, base_ISO.isNone, base_Ev.isNone,
    [ExtCall.exiftool_copy_tags rawfile outfile, ExtCall.exiftool_set_ISO_Ev ISO Ev outfile])

/-- The synthetic ISO the spec prescribes: base (fallback 100) times 2^shift. -/
def specSyntheticISO (base_ISO : Option Int) (Ev_shift : Int) : ℚ :=
  (match base_ISO with | some i => (i : ℚ) | none => 100) * (2 : ℚ) ^ Ev_shift

/-- The synthetic Ev the spec prescribes: base (fallback 8) plus shift. -/
def specSyntheticEv (base_Ev : Option Int) (Ev_shift : Int) : ℚ :=
  (match base_Ev with | some e => (e : ℚ) | none => 8) + (Ev_shift : ℚ)

/-- Claim C6 as stated: the renderer writes the synthetic ISO/EV fields into
the rendered file, which in the trace model means its command trace contains
an exiftool set-tags call carrying those values. -/
def specRendererWritesTags (calls : List ExtCall) (base_ISO base_Ev : Option Int)
    (Ev_shift : Int) : Prop :=
  ∃ dst, ExtCall.exiftool_set_ISO_Ev (specSyntheticISO base_ISO Ev_shift)
    (specSyntheticEv base_Ev Ev_shift) dst ∈ calls

/-! ## The batch loop (postprocess_photos.py lines 505-519, HDR_from_raw.py
lines 180-189) -/

/-- The tail of create_HDR_script from massage_file_list on: the
`except BaseException` handler catches any error raised inside (logging it)
and the function then returns None instead of a script path. -/
def create_HDR_script_result (rawfile : List Char) (env : PyEnv)
    (selected_files : List (List Char)) : Option (List Char) :=
  match massage_file_list selected_files with
  | Except.error _ => none
  | Except.ok sel =>
      some (create_script_from_file_list (anchorStep rawfile sel) (some rawfile)
        true true env).2

/-- HDR_tonemap_from_raw: runs the script returned by create_HDR_script.  When
that is None, `os.path.abspath(None)` raises a TypeError which nothing
catches. -/
def HDR_tonemap_from_raw (rawfile : List Char) (env : PyEnv)
    (selected_files : List (List Char)) : Except String Unit :=
  match create_HDR_script_result rawfile env selected_files with
  | none => Except.error ("TypeError: expected str, bytes or os.PathLike object, not NoneType")
  | some _ => Except.ok ()

/-- create_HDRs_from_raws: process each raw in turn with no exception handler
around the loop body; an uncaught exception aborts the remainder.  Each raw is
paired with the file list its bracket selection produced.  Returns (number of
raws fully processed, the aborting error if any). -/
def create_HDRs_from_raws (env : PyEnv) (the_raws : List (List Char × List (List Char))) :
    ℕ × Option String :=
  match the_raws with
  | [] => (0, none)
  | (rawfile, selected) :: rest =>
    match HDR_tonemap_from_raw rawfile env selected with
    | Except.ok _ => let r := create_HDRs_from_raws env rest; (r.1 + 1, r.2)
    | Except.error e => (0, some e)

/-! ## Concrete histogram shapes and their smoothing / clipping behaviour,
used for the concrete scenario theorems below -/

lemma mean_rep1 : pyMean (List.replicate 256 (1:ℚ)) = 1 := by
  simp only [pyMean, List.sum_replicate, List.length_replicate, nsmul_eq_mul]
  norm_num

lemma var_rep1 : pySampleVar (List.replicate 256 (1:ℚ)) = 0 := by
  simp only [pySampleVar, mean_rep1, List.map_replicate, List.sum_replicate,
    List.length_replicate, nsmul_eq_mul]
  norm_num

/-- A flat histogram smooths to all zeros: its stdev is 0, so the threshold
equals the mean and no bucket is strictly above it. -/
lemma smooth_rep1 :
    get_smoothed_image_histogram (List.replicate 256 (1:ℚ)) = List.replicate 256 0 := by
  simp only [get_smoothed_image_histogram, mean_rep1, var_rep1, List.map_replicate]
  norm_num [keepB]

lemma mean_spike0 : pyMean ((256:ℚ) :: List.replicate 255 0) = 1 := by
  simp only [pyMean, List.sum_cons, List.sum_replicate, List.length_cons,
    List.length_replicate, nsmul_eq_mul]
  norm_num

lemma var_spike0 : pySampleVar ((256:ℚ) :: List.replicate 255 0) = 256 := by
  simp only [pySampleVar, mean_spike0, List.map_cons, List.map_replicate,
    List.sum_cons, List.sum_replicate, List.length_cons, List.length_replicate, nsmul_eq_mul]
  norm_num

/-- A single spike at bucket 0 survives smoothing unchanged. -/
lemma smooth_spike0 :
    get_smoothed_image_histogram ((256:ℚ) :: List.replicate 255 0) =
      (256:ℚ) :: List.replicate 255 0 := by
  simp only [get_smoothed_image_histogram, mean_spike0, var_spike0,
    List.map_cons, List.map_replicate]
  norm_num [keepB]

lemma mean_spike255 : pyMean (List.replicate 255 (0:ℚ) ++ [256]) = 1 := by
  simp only [pyMean, List.sum_append, List.sum_replicate, List.sum_cons, List.sum_nil,
    List.length_append, List.length_replicate, List.length_cons, List.length_nil, nsmul_eq_mul]
  norm_num

lemma var_spike255 : pySampleVar (List.replicate 255 (0:ℚ) ++ [256]) = 256 := by
  simp only [pySampleVar, mean_spike255, List.map_append, List.map_replicate, List.map_cons,
    List.map_nil, List.sum_append, List.sum_replicate, List.sum_cons, List.sum_nil,
    List.length_append, List.length_replicate, List.length_cons, List.length_nil, nsmul_eq_mul]
  norm_num

/-- A single spike at bucket 255 survives smoothing unchanged. -/
lemma smooth_spike255 :
    get_smoothed_image_histogram (List.replicate 255 (0:ℚ) ++ [256]) =
      List.replicate 255 (0:ℚ) ++ [256] := by
  simp only [get_smoothed_image_histogram, mean_spike255, var_spike255,
    List.map_append, List.map_cons, List.map_nil, List.map_replicate]
  norm_num [keepB]

lemma cl_rep0_right : is_right_edge_clipping (List.replicate 256 (0:ℚ)) = true := by
  simp only [is_right_edge_clipping, clipping_threshold]
  norm_num [List.take_replicate, List.drop_replicate, List.sum_replicate]

lemma cl_rep0_left : is_left_edge_clipping (List.replicate 256 (0:ℚ)) = true := by
  simp only [is_left_edge_clipping, clipping_threshold]
  norm_num [List.take_replicate, List.drop_replicate, List.sum_replicate]

lemma take_cons112 (a : ℚ) (l : List ℚ) :
    List.take 112 (a :: l) = a :: List.take 111 l := by
  have h : (112:ℕ) = 111 + 1 := rfl
  rw [h, List.take_succ_cons]

lemma drop_cons112 (a : ℚ) (l : List ℚ) :
    List.drop 112 (a :: l) = List.drop 111 l := by
  have h : (112:ℕ) = 111 + 1 := rfl
  rw [h, List.drop_succ_cons]

lemma take_cons144 (a : ℚ) (l : List ℚ) :
    List.take 144 (a :: l) = a :: List.take 143 l := by
  have h : (144:ℕ) = 143 + 1 := rfl
  rw [h, List.take_succ_cons]

lemma drop_cons144 (a : ℚ) (l : List ℚ) :
    List.drop 144 (a :: l) = List.drop 143 l := by
  have h : (144:ℕ) = 143 + 1 := rfl
  rw [h, List.drop_succ_cons]

lemma cl_spike0_right : is_right_edge_clipping ((256:ℚ) :: List.replicate 255 0) = false := by
  simp only [is_right_edge_clipping, clipping_threshold]
  norm_num [take_cons112, drop_cons112, List.take_replicate, List.drop_replicate,
    List.sum_replicate, List.sum_cons]

lemma cl_spike0_left : is_left_edge_clipping ((256:ℚ) :: List.replicate 255 0) = true := by
  simp only [is_left_edge_clipping, clipping_threshold]
  norm_num [take_cons144, drop_cons144, List.take_replicate, List.drop_replicate,
    List.sum_replicate, List.sum_cons]

lemma cl_spike255_right : is_right_edge_clipping (List.replicate 255 (0:ℚ) ++ [256]) = true := by
  simp only [is_right_edge_clipping, clipping_threshold]
  rw [decide_eq_true_eq]
  rw [List.take_append_of_le_length (by norm_num), List.drop_append_of_le_length (by norm_num)]
  norm_num [List.take_replicate, List.drop_replicate, List.sum_replicate]

lemma cl_spike255_left : is_left_edge_clipping (List.replicate 255 (0:ℚ) ++ [256]) = false := by
  simp only [is_left_edge_clipping, clipping_threshold]
  rw [decide_eq_false_iff_not]
  rw [List.take_append_of_le_length (by norm_num), List.drop_append_of_le_length (by norm_num)]
  norm_num [List.take_replicate, List.drop_replicate, List.sum_replicate]

/-! ### How one scan step reacts to the four possible (flags, clipping)
situations -/

lemma scan1Step_seek_clip (histo : Int → List ℚ) (surv : List Int) (c : Int)
    (h : is_right_edge_clipping (get_smoothed_image_histogram (histo c)) = true) :
    scan1Step histo (surv, false, false) c = (surv, false, false) := by
  simp [scan1Step, h]

lemma scan1Step_seek_noclip (histo : Int → List ℚ) (surv : List Int) (c : Int)
    (h : is_right_edge_clipping (get_smoothed_image_histogram (histo c)) = false) :
    scan1Step histo (surv, false, false) c = (surv, true, false) := by
  simp [scan1Step, h]

lemma scan1Step_found_left (histo : Int → List ℚ) (surv : List Int) (c : Int)
    (h : is_left_edge_clipping (get_smoothed_image_histogram (histo c)) = true) :
    scan1Step histo (surv, true, false) c = (surv.erase c, true, true) := by
  simp [scan1Step, h]

lemma scan1Step_end (histo : Int → List ℚ) (surv : List Int) (fb : Bool) (c : Int) :
    scan1Step histo (surv, fb, true) c = (surv.erase c, fb, true) := by
  simp [scan1Step]

lemma scan2Step_seek_clip (histo : Int → List ℚ) (surv : List Int) (c : Int)
    (h : is_left_edge_clipping (get_smoothed_image_histogram (histo c)) = true) :
    scan2Step histo (surv, false, false) c = (surv, false, false) := by
  simp [scan2Step, h]

lemma scan2Step_seek_noclip (histo : Int → List ℚ) (surv : List Int) (c : Int)
    (h : is_left_edge_clipping (get_smoothed_image_histogram (histo c)) = false) :
    scan2Step histo (surv, false, false) c = (surv, true, false) := by
  simp [scan2Step, h]

lemma scan2Step_found_right (histo : Int → List ℚ) (surv : List Int) (c : Int)
    (h : is_right_edge_clipping (get_smoothed_image_histogram (histo c)) = true) :
    scan2Step histo (surv, true, false) c = (surv.erase c, true, true) := by
  simp [scan2Step, h]

lemma scan2Step_end (histo : Int → List ℚ) (surv : List Int) (fb : Bool) (c : Int) :
    scan2Step histo (surv, fb, true) c = (surv.erase c, fb, true) := by
  simp [scan2Step]

/-! ### Two concrete per-shift histogram families (model inputs for the
scenario theorems): `histoMixed` produces flat histograms for non-negative
shifts and a pure-black spike for negative shifts; `histoAllClip` produces a
pure-white spike for every shift. -/

/-- A demonstration raw file name. -/
def rawDemo : List Char := ("f.cr2".data)

/-- Per-shift raw histograms: flat for shifts >= 0 (both edges clip after
smoothing), all-black spike for shifts < 0 (left clips, right does not). -/
def histoMixed : Int → List ℚ :=
  fun s => if 0 ≤ s then List.replicate 256 1 else (256:ℚ) :: List.replicate 255 0

/-- Per-shift raw histograms: all-white spike for every shift, so every
candidate exhibits right-edge clipping. -/
def histoAllClip : Int → List ℚ := fun _ => List.replicate 255 (0:ℚ) ++ [256]

lemma mixed_pos_right (s : Int) (hs : 0 ≤ s) :
    is_right_edge_clipping (get_smoothed_image_histogram (histoMixed s)) = true := by
  rw [histoMixed]
  simp only [if_pos hs]
  rw [smooth_rep1]
  exact cl_rep0_right

lemma mixed_pos_left (s : Int) (hs : 0 ≤ s) :
    is_left_edge_clipping (get_smoothed_image_histogram (histoMixed s)) = true := by
  rw [histoMixed]
  simp only [if_pos hs]
  rw [smooth_rep1]
  exact cl_rep0_left

lemma mixed_neg_right (s : Int) (hs : ¬ (0 ≤ s)) :
    is_right_edge_clipping (get_smoothed_image_histogram (histoMixed s)) = false := by
  rw [histoMixed]
  simp only [if_neg hs]
  rw [smooth_spike0]
  exact cl_spike0_right

lemma mixed_neg_left (s : Int) (hs : ¬ (0 ≤ s)) :
    is_left_edge_clipping (get_smoothed_image_histogram (histoMixed s)) = true := by
  rw [histoMixed]
  simp only [if_neg hs]
  rw [smooth_spike0]
  exact cl_spike0_left

lemma allclip_right (s : Int) :
    is_right_edge_clipping (get_smoothed_image_histogram (histoAllClip s)) = true := by
  show is_right_edge_clipping
    (get_smoothed_image_histogram (List.replicate 255 (0:ℚ) ++ [256])) = true
  rw [smooth_spike255]
  exact cl_spike255_right

lemma allclip_left (s : Int) :
    is_left_edge_clipping (get_smoothed_image_histogram (histoAllClip s)) = false := by
  show is_left_edge_clipping
    (get_smoothed_image_histogram (List.replicate 255 (0:ℚ) ++ [256])) = false
  rw [smooth_spike255]
  exact cl_spike255_left

lemma scan1_histoMixed : scan1 histoMixed = [-1, 0, 1, 2, 3, 4, 5] := by
  have hrev : shifts.reverse = [5, 4, 3, 2, 1, 0, -1, -2, -3, -4, -5] := by decide
  rw [scan1, hrev]
  rw [List.foldl_cons, scan1Step_seek_clip _ _ _ (mixed_pos_right 5 (by norm_num))]
  rw [List.foldl_cons, scan1Step_seek_clip _ _ _ (mixed_pos_right 4 (by norm_num))]
  rw [List.foldl_cons, scan1Step_seek_clip _ _ _ (mixed_pos_right 3 (by norm_num))]
  rw [List.foldl_cons, scan1Step_seek_clip _ _ _ (mixed_pos_right 2 (by norm_num))]
  rw [List.foldl_cons, scan1Step_seek_clip _ _ _ (mixed_pos_right 1 (by norm_num))]
  rw [List.foldl_cons, scan1Step_seek_clip _ _ _ (mixed_pos_right 0 (by norm_num))]
  rw [List.foldl_cons, scan1Step_seek_noclip _ _ _ (mixed_neg_right (-1) (by norm_num))]
  rw [List.foldl_cons, scan1Step_found_left _ _ _ (mixed_neg_left (-2) (by norm_num))]
  rw [List.foldl_cons, scan1Step_end]
  rw [List.foldl_cons, scan1Step_end]
  rw [List.foldl_cons, scan1Step_end, List.foldl_nil]
  decide

lemma scan2_histoMixed : scan2 histoMixed [-1, 0, 1, 2, 3, 4, 5] = [-1, 0, 1, 2, 3, 4, 5] := by
  rw [scan2]
  have hmin : listMin (-1) [0, 1, 2, 3, 4, 5] = -1 := by decide
  have hrange : intRange (-1) 5 = [-1, 0, 1, 2, 3, 4, 5] := by decide
  rw [hmin, hrange]
  rw [List.foldl_cons, scan2Step_seek_clip _ _ _ (mixed_neg_left (-1) (by norm_num))]
  rw [List.foldl_cons, scan2Step_seek_clip _ _ _ (mixed_pos_left 0 (by norm_num))]
  rw [List.foldl_cons, scan2Step_seek_clip _ _ _ (mixed_pos_left 1 (by norm_num))]
  rw [List.foldl_cons, scan2Step_seek_clip _ _ _ (mixed_pos_left 2 (by norm_num))]
  rw [List.foldl_cons, scan2Step_seek_clip _ _ _ (mixed_pos_left 3 (by norm_num))]
  rw [List.foldl_cons, scan2Step_seek_clip _ _ _ (mixed_pos_left 4 (by norm_num))]
  rw [List.foldl_cons, scan2Step_seek_clip _ _ _ (mixed_pos_left 5 (by norm_num))]
  rw [List.foldl_nil]

lemma scan1_histoAllClip : scan1 histoAllClip = [-5, -4, -3, -2, -1, 0, 1, 2, 3, 4, 5] := by
  have hrev : shifts.reverse = [5, 4, 3, 2, 1, 0, -1, -2, -3, -4, -5] := by decide
  rw [scan1, hrev]
  rw [List.foldl_cons, scan1Step_seek_clip _ _ _ (allclip_right 5)]
  rw [List.foldl_cons, scan1Step_seek_clip _ _ _ (allclip_right 4)]
  rw [List.foldl_cons, scan1Step_seek_clip _ _ _ (allclip_right 3)]
  rw [List.foldl_cons, scan1Step_seek_clip _ _ _ (allclip_right 2)]
  rw [List.foldl_cons, scan1Step_seek_clip _ _ _ (allclip_right 1)]
  rw [List.foldl_cons, scan1Step_seek_clip _ _ _ (allclip_right 0)]
  rw [List.foldl_cons, scan1Step_seek_clip _ _ _ (allclip_right (-1))]
  rw [List.foldl_cons, scan1Step_seek_clip _ _ _ (allclip_right (-2))]
  rw [List.foldl_cons, scan1Step_seek_clip _ _ _ (allclip_right (-3))]
  rw [List.foldl_cons, scan1Step_seek_clip _ _ _ (allclip_right (-4))]
  rw [List.foldl_cons, scan1Step_seek_clip _ _ _ (allclip_right (-5)), List.foldl_nil]
  decide

lemma scan2_histoAllClip : scan2 histoAllClip [-5, -4, -3, -2, -1, 0, 1, 2, 3, 4, 5] = [-5] := by
  rw [scan2]
  have hmin : listMin (-5) [-4, -3, -2, -1, 0, 1, 2, 3, 4, 5] = -5 := by decide
  have hrange : intRange (-5) 5 = [-5, -4, -3, -2, -1, 0, 1, 2, 3, 4, 5] := by decide
  rw [hmin, hrange]
  rw [List.foldl_cons, scan2Step_seek_noclip _ _ _ (allclip_left (-5))]
  rw [List.foldl_cons, scan2Step_found_right _ _ _ (allclip_right (-4))]
  rw [List.foldl_cons, scan2Step_end]
  rw [List.foldl_cons, scan2Step_end]
  rw [List.foldl_cons, scan2Step_end]
  rw [List.foldl_cons, scan2Step_end]
  rw [List.foldl_cons, scan2Step_end]
  rw [List.foldl_cons, scan2Step_end]
  rw [List.foldl_cons, scan2Step_end]
  rw [List.foldl_cons, scan2Step_end]
  rw [List.foldl_cons, scan2Step_end, List.foldl_nil]
  decide

lemma massage_ok {α : Type} (a : α) (l : List α) :
    massage_file_list (a :: l) = Except.ok (a :: l) := by
  unfold massage_file_list
  rw [if_pos]
  simp

lemma demo_names_eval :
    List.map (shiftFileName (pySplitextStem rawDemo)) [-1, 0, 1, 2, 3, 4, 5] =
    [("HDR_AIS_f-1.tif".data), ("HDR_AIS_f+0.tif".data), ("HDR_AIS_f+1.tif".data),
      ("HDR_AIS_f+2.tif".data), ("HDR_AIS_f+3.tif".data), ("HDR_AIS_f+4.tif".data),
      ("HDR_AIS_f+5.tif".data)] := by decide

lemma demo_anchor_eval : anchorStep rawDemo
    [("HDR_AIS_f-1.tif".data), ("HDR_AIS_f+0.tif".data), ("HDR_AIS_f+1.tif".data),
      ("HDR_AIS_f+2.tif".data), ("HDR_AIS_f+3.tif".data), ("HDR_AIS_f+4.tif".data),
      ("HDR_AIS_f+5.tif".data)] =
    [("HDR_AIS_f+0.tif".data), ("HDR_AIS_f+1.tif".data), ("HDR_AIS_f+2.tif".data),
      ("HDR_AIS_f+3.tif".data), ("HDR_AIS_f+4.tif".data), ("HDR_AIS_f+5.tif".data),
      ("HDR_AIS_f-1.tif".data)] := by decide

/-- The bracket `selectBracket` actually returns on `histoMixed`: sorted by
filename, so the EV sequence is 0, 1, 2, 3, 4, 5, -1. -/
lemma selectBracket_histoMixed : selectBracket rawDemo histoMixed =
    Except.ok [("HDR_AIS_f+0.tif".data), ("HDR_AIS_f+1.tif".data), ("HDR_AIS_f+2.tif".data),
      ("HDR_AIS_f+3.tif".data), ("HDR_AIS_f+4.tif".data), ("HDR_AIS_f+5.tif".data),
      ("HDR_AIS_f-1.tif".data)] := by
  unfold selectBracket bracketFileNames
  rw [scan1_histoMixed, scan2_histoMixed, demo_names_eval, massage_ok]
  dsimp only
  rw [demo_anchor_eval]

lemma demo_names_allclip :
    List.map (shiftFileName (pySplitextStem rawDemo)) [-5] = [("HDR_AIS_f-5.tif".data)] := by
  decide

lemma demo_anchor_allclip :
    anchorStep rawDemo [("HDR_AIS_f-5.tif".data)] = [("HDR_AIS_f-5.tif".data)] := by decide

/-- On `histoAllClip` (every candidate right-clips) the selection still
returns a non-empty bracket: the darkest candidate alone. -/
lemma selectBracket_histoAllClip : selectBracket rawDemo histoAllClip =
    Except.ok [("HDR_AIS_f-5.tif".data)] := by
  unfold selectBracket bracketFileNames
  rw [scan1_histoAllClip, scan2_histoAllClip, demo_names_allclip, massage_ok]
  dsimp only
  rw [demo_anchor_allclip]

/-! ### The lexicographic order `pyStrLe` is a total order -/

lemma pyStrLe_refl (a : List Char) : pyStrLe a a = true := by
  induction a with
  | nil => rfl
  | cons c cs ih => simp [pyStrLe, lt_irrefl, ih]

lemma pyStrLe_total (a b : List Char) : pyStrLe a b = true ∨ pyStrLe b a = true := by
  induction a generalizing b with
  | nil => left; rfl
  | cons c cs ih =>
    cases b with
    | nil => right; rfl
    | cons d ds =>
      rcases lt_trichotomy c d with h | h | h
      · left; simp [pyStrLe, h]
      · subst h
        rcases ih ds with h2 | h2
        · left; simp [pyStrLe, lt_irrefl, h2]
        · right; simp [pyStrLe, lt_irrefl, h2]
      · right; simp [pyStrLe, h]

lemma pyStrLe_trans {a b c : List Char} (hab : pyStrLe a b = true)
    (hbc : pyStrLe b c = true) : pyStrLe a c = true := by
  induction a generalizing b c with
  | nil => rfl
  | cons x xs ih =>
    cases b with
    | nil => simp [pyStrLe] at hab
    | cons y ys =>
      cases c with
      | nil => simp [pyStrLe] at hbc
      | cons z zs =>
        rcases lt_trichotomy x y with h1 | h1 | h1
        · rcases lt_trichotomy y z with h2 | h2 | h2
          · simp [pyStrLe, h1.trans h2]
          · subst h2; simp [pyStrLe, h1]
          · simp [pyStrLe, h2, asymm h2] at hbc
        · subst h1
          rcases lt_trichotomy x z with h2 | h2 | h2
          · simp [pyStrLe, h2]
          · subst h2
            simp only [pyStrLe, if_neg (lt_irrefl x)] at hab hbc ⊢
            exact ih hab hbc
          · simp [pyStrLe, h2, asymm h2] at hbc
        · simp [pyStrLe, h1, asymm h1] at hab

lemma pyStrLe_antisymm {a b : List Char} (hab : pyStrLe a b = true)
    (hba : pyStrLe b a = true) : a = b := by
  induction a generalizing b with
  | nil =>
    cases b with
    | nil => rfl
    | cons d ds => simp [pyStrLe] at hba
  | cons c cs ih =>
    cases b with
    | nil => simp [pyStrLe] at hab
    | cons d ds =>
      rcases lt_trichotomy c d with h | h | h
      · simp [pyStrLe, h, asymm h] at hba
      · subst h
        simp only [pyStrLe, if_neg (lt_irrefl c)] at hab hba
        rw [ih hab hba]
      · simp [pyStrLe, h, asymm h] at hab

instance : IsTotal (List Char) pyStrLePr :=
  ⟨fun a b => pyStrLe_total a b⟩

instance : IsTrans (List Char) pyStrLePr :=
  ⟨fun _ _ _ => pyStrLe_trans⟩

/-- A shared prefix cancels in the lexicographic comparison. -/
lemma pyStrLe_append_left (p a b : List Char) :
    pyStrLe (p ++ a) (p ++ b) = pyStrLe a b := by
  induction p with
  | nil => rfl
  | cons c cs ih => simp [pyStrLe, lt_irrefl, ih]

/-! ### Facts about the shifted-rendering file names -/

lemma shiftSuffix_length {s : Int} (hs : s ∈ shifts) : (shiftSuffix s).length = 6 :=
  (by decide : ∀ x ∈ shifts, (shiftSuffix x).length = 6) s hs

lemma shiftFileName_length (stem : List Char) {s : Int} (hs : s ∈ shifts) :
    (shiftFileName stem s).length = stem.length + 14 := by
  have h8 : ("HDR_AIS_".data).length = 8 := by decide
  simp only [shiftFileName, List.length_append, h8, shiftSuffix_length hs]
  omega

/-- The zero-shift rendering name is lexicographically least among all
renderings of the same stem: `+0` beats `+1` ... `+5` on the digit and beats
the negative shifts because the code point of `+` is below that of `-`. -/
lemma zero_name_min (stem : List Char) {s : Int} (hs : s ∈ shifts) :
    pyStrLe (shiftFileName stem 0) (shiftFileName stem s) = true := by
  have h0 : shiftFileName stem 0 = (("HDR_AIS_".data) ++ stem) ++ shiftSuffix 0 := by
    rw [shiftFileName, List.append_assoc]
  have h1 : shiftFileName stem s = (("HDR_AIS_".data) ++ stem) ++ shiftSuffix s := by
    rw [shiftFileName, List.append_assoc]
  rw [h0, h1, pyStrLe_append_left]
  exact (by decide : ∀ x ∈ shifts, pyStrLe (shiftSuffix 0) (shiftSuffix x) = true) s hs

/-- `base_TIFF` (stem + `+0.tif`, without the HDR_AIS_ prefix) is never among
the rendered file names: its length is 8 short. -/
lemma base_TIFF_not_mem (stem : List Char) (ss : List Int) (hss : ∀ s ∈ ss, s ∈ shifts) :
    (stem ++ ("+0.tif".data)) ∉ ss.map (shiftFileName stem) := by
  intro hmem
  obtain ⟨s, hs, heq⟩ := List.mem_map.mp hmem
  have h1 := shiftFileName_length stem (hss s hs)
  have h6 : (("+0.tif".data)).length = 6 := by decide
  have h2 : (stem ++ ("+0.tif".data)).length = stem.length + 6 := by
    simp [List.length_append, h6]
  rw [heq] at h1
  omega

/-! ### Scan invariants: a scan step only ever erases the shift it is
visiting, so an element not on the remaining worklist survives, and the
surviving set only shrinks -/

lemma scan1Step_surv (histo : Int → List ℚ) (st : List Int × Bool × Bool) (c : Int) :
    (scan1Step histo st c).1 = st.1 ∨ (scan1Step histo st c).1 = st.1.erase c := by
  obtain ⟨surv, fb, fe⟩ := st
  simp only [scan1Step]
  split_ifs <;> simp

lemma scan2Step_surv (histo : Int → List ℚ) (st : List Int × Bool × Bool) (c : Int) :
    (scan2Step histo st c).1 = st.1 ∨ (scan2Step histo st c).1 = st.1.erase c := by
  obtain ⟨surv, fb, fe⟩ := st
  simp only [scan2Step]
  split_ifs <;> simp

lemma foldl_erase_mem {step : (List Int × Bool × Bool) → Int → (List Int × Bool × Bool)}
    (hstep : ∀ st c, (step st c).1 = st.1 ∨ (step st c).1 = st.1.erase c) :
    ∀ (todo : List Int) (st : List Int × Bool × Bool) (b : Int),
      b ∈ st.1 → b ∉ todo → b ∈ (todo.foldl step st).1
  | [], _, _, hb, _ => hb
  | c :: todo', st, b, hb, hnt => by
    rw [List.foldl_cons]
    refine foldl_erase_mem hstep todo' (step st c) b ?_
      (fun h => hnt (List.mem_cons_of_mem _ h))
    rcases hstep st c with h | h
    · rw [h]; exact hb
    · rw [h]
      exact (List.mem_erase_of_ne
        (fun he => hnt (by rw [he]; exact List.mem_cons_self c todo'))).mpr hb

lemma foldl_erase_subset {step : (List Int × Bool × Bool) → Int → (List Int × Bool × Bool)}
    (hstep : ∀ st c, (step st c).1 = st.1 ∨ (step st c).1 = st.1.erase c) :
    ∀ (todo : List Int) (st : List Int × Bool × Bool),
      (todo.foldl step st).1 ⊆ st.1
  | [], _ => fun _ h => h
  | c :: todo', st => by
    rw [List.foldl_cons]
    refine (foldl_erase_subset hstep todo' (step st c)).trans ?_
    rcases hstep st c with h | h
    · rw [h]; exact fun _ hx => hx
    · rw [h]; exact List.erase_subset _ _

/-! ### The scans never empty the survivor set -/

/-- Shift 5 is visited first by the downward scan (which never erases the
shift it is visiting while still seeking the beginning) and never again, so it
always survives scan 1. -/
lemma five_mem_scan1 (histo : Int → List ℚ) : (5 : Int) ∈ scan1 histo := by
  rw [scan1]
  have hrev : shifts.reverse = 5 :: [4, 3, 2, 1, 0, -1, -2, -3, -4, -5] := by decide
  rw [hrev, List.foldl_cons]
  have h1 : (scan1Step histo (shifts, false, false) 5).1 = shifts := by
    simp [scan1Step]
  exact foldl_erase_mem (scan1Step_surv histo) _ _ 5
    (by rw [h1]; decide) (by decide)

lemma scan1_subset (histo : Int → List ℚ) : scan1 histo ⊆ shifts := by
  rw [scan1]
  exact foldl_erase_subset (scan1Step_surv histo) _ _

lemma listMin_mem (x : Int) (xs : List Int) : listMin x xs ∈ x :: xs := by
  induction xs generalizing x with
  | nil => exact List.mem_singleton.mpr rfl
  | cons y ys ih =>
    have hstep : listMin x (y :: ys) = listMin (min x y) ys := by
      rw [listMin, listMin, List.foldl_cons]
    rw [hstep]
    rcases List.mem_cons.mp (ih (min x y)) with h1 | h1
    · rcases min_choice x y with hm | hm
      · rw [h1, hm]; exact List.mem_cons_self _ _
      · rw [h1, hm]; exact List.mem_cons_of_mem _ (List.mem_cons_self _ _)
    · exact List.mem_cons_of_mem _ (List.mem_cons_of_mem _ h1)

lemma intRange_cons {lo hi : Int} (h : lo ≤ hi) :
    intRange lo hi = lo :: intRange (lo + 1) hi := by
  unfold intRange
  have hn : (hi + 1 - lo).toNat = (hi - lo).toNat + 1 := by omega
  have hn2 : (hi + 1 - (lo + 1)).toNat = (hi - lo).toNat := by omega
  rw [hn, hn2, List.range_succ_eq_map, List.map_cons, List.map_map]
  congr 1
  · simp
  · apply List.map_congr_left
    intro a _
    simp [Function.comp]
    omega

lemma mem_intRange_lower {lo hi y : Int} (h : y ∈ intRange lo hi) : lo ≤ y := by
  unfold intRange at h
  obtain ⟨i, _, heq⟩ := List.mem_map.mp h
  have hy : y = lo + Int.ofNat i := heq.symm
  have hnn : 0 ≤ Int.ofNat i := Int.ofNat_nonneg i
  omega

/-- The minimum surviving shift is visited first by the upward scan and never
erased afterwards. -/
lemma scan2_min_mem (histo : Int → List ℚ) (x : Int) (xs : List Int)
    (h5 : listMin x xs ≤ 5) : listMin x xs ∈ scan2 histo (x :: xs) := by
  have hdef : scan2 histo (x :: xs) =
      ((intRange (listMin x xs) 5).foldl (scan2Step histo) (x :: xs, false, false)).1 := rfl
  rw [hdef, intRange_cons h5, List.foldl_cons]
  have h1 : (scan2Step histo (x :: xs, false, false) (listMin x xs)).1 = x :: xs := by
    simp [scan2Step]
  refine foldl_erase_mem (scan2Step_surv histo) _ _ (listMin x xs)
    (by rw [h1]; exact listMin_mem x xs) ?_
  intro hm
  have := mem_intRange_lower hm
  omega

lemma scan2_subset (histo : Int → List ℚ) (x : Int) (xs : List Int) :
    scan2 histo (x :: xs) ⊆ x :: xs := by
  have hdef : scan2 histo (x :: xs) =
      ((intRange (listMin x xs) 5).foldl (scan2Step histo) (x :: xs, false, false)).1 := rfl
  rw [hdef]
  exact foldl_erase_subset (scan2Step_surv histo) _ _

lemma bracket_survivors_subset (histo : Int → List ℚ) :
    ∀ s ∈ scan2 histo (scan1 histo), s ∈ shifts := by
  intro s hs
  rcases hsc : scan1 histo with _ | ⟨x, xs⟩
  · rw [hsc] at hs
    have hnil : scan2 histo [] = [] := rfl
    rw [hnil] at hs
    simp at hs
  · rw [hsc] at hs
    have hsub := scan2_subset histo x xs hs
    rw [← hsc] at hsub
    exact scan1_subset histo hsub

lemma bracket_survivors_ne_nil (histo : Int → List ℚ) :
    scan2 histo (scan1 histo) ≠ [] := by
  have h5 := five_mem_scan1 histo
  rcases hsc : scan1 histo with _ | ⟨x, xs⟩
  · rw [hsc] at h5
    simp at h5
  · have hmin := listMin_mem x xs
    have hb : ∀ s ∈ shifts, s ≤ 5 := by decide
    have hmin2 : listMin x xs ∈ scan1 histo := by rw [hsc]; exact hmin
    have h5' : listMin x xs ≤ 5 := hb _ (scan1_subset histo hmin2)
    exact List.ne_nil_of_mem (scan2_min_mem histo x xs h5')

/-- What `selectBracket` actually produces: no error, and the output is the
twice-sorted survivor name list (the anchor move is dead code, because
`base_TIFF` lacks the HDR_AIS_ prefix and is never found). -/
lemma selectBracket_eval (rawfile : List Char) (histo : Int → List ℚ) :
    selectBracket rawfile histo =
      Except.ok (pySorted (pySorted (bracketFileNames rawfile histo))) := by
  have hne : bracketFileNames rawfile histo ≠ [] := by
    unfold bracketFileNames
    simp only [ne_eq, List.map_eq_nil_iff]
    exact bracket_survivors_ne_nil histo
  obtain ⟨n, rest, hcons⟩ := List.exists_cons_of_ne_nil hne
  unfold selectBracket
  rw [hcons, massage_ok]
  dsimp only
  rw [← hcons]
  congr 1
  simp only [anchorStep]
  rw [if_neg]
  intro hmem
  have h1 : (pySplitextStem rawfile ++ ("+0.tif".data)) ∈ bracketFileNames rawfile histo :=
    (List.perm_insertionSort pyStrLePr _).mem_iff.mp hmem
  unfold bracketFileNames at h1
  exact base_TIFF_not_mem _ _ (bracket_survivors_subset histo) h1

/-- Selection always succeeds with a non-empty, lexicographically sorted
list. -/
lemma selectBracket_ok_ne_nil (rawfile : List Char) (histo : Int → List ℚ) :
    ∃ l, selectBracket rawfile histo = Except.ok l ∧ l ≠ [] ∧
      List.Sorted pyStrLePr l := by
  refine ⟨_, selectBracket_eval rawfile histo, ?_,
    List.sorted_insertionSort pyStrLePr (pySorted (bracketFileNames rawfile histo))⟩
  intro h
  have hne : bracketFileNames rawfile histo ≠ [] := by
    unfold bracketFileNames
    simp only [ne_eq, List.map_eq_nil_iff]
    exact bracket_survivors_ne_nil histo
  have hp : List.Perm (pySorted (pySorted (bracketFileNames rawfile histo)))
      (bracketFileNames rawfile histo) :=
    (List.perm_insertionSort pyStrLePr _).trans (List.perm_insertionSort pyStrLePr _)
  rw [h] at hp
  exact hne hp.symm.eq_nil

/-! ## Claims C1, C2, C3 -/

/-- C1 (amended): for the configured (non-empty) EV range, bracket selection
always returns a non-empty file list sorted lexicographically by filename
(the anchor, its least element, first); the documented empty-bracket error is
never actually raised, and an empty list is never returned as a success. -/
theorem bracket_selection_nonempty_sorted (rawfile : List Char) (histo : Int → List ℚ) :
    ∃ l, selectBracket rawfile histo = Except.ok l ∧ l ≠ [] ∧
      List.Sorted pyStrLePr l :=
  selectBracket_ok_ne_nil rawfile histo

/-- Decode the EV shift from the trailing `<sign><digit>.tif` of a rendered
file name (a spec-side helper, used only to STATE the EV-ordering property of
claim C1). -/
def evShiftOfName (nm : List Char) : Int :=
  let core := nm.take (nm.length - 4)
  let sgn := core.getD (core.length - 2) ' '
  let dig := (core.getD (core.length - 1) '0').toNat - ('0').toNat
  if sgn = '-' then -(dig : Int) else (dig : Int)

/-- Claim C1's ordering requirement as stated (spec wording): apart from the
anchor moved to the front, the list is ordered by EV shift (either direction
accepted, generously). -/
def specEvOrderedExceptAnchor (l : List (List Char)) : Prop :=
  List.Chain' (fun a b => a ≤ b) ((l.drop 1).map evShiftOfName) ∨
    List.Chain' (fun a b => b ≤ a) ((l.drop 1).map evShiftOfName)


/-- C1 counterexample: on `histoMixed` the selection succeeds with EV order
0, 1, 2, 3, 4, 5, -1 - lexicographic filename order, which after removing the
anchor is NOT monotone in the EV shift in either direction. -/
theorem bracket_selection_not_EV_ordered :
    selectBracket rawDemo histoMixed = Except.ok
      [("HDR_AIS_f+0.tif".data), ("HDR_AIS_f+1.tif".data), ("HDR_AIS_f+2.tif".data),
        ("HDR_AIS_f+3.tif".data), ("HDR_AIS_f+4.tif".data), ("HDR_AIS_f+5.tif".data),
        ("HDR_AIS_f-1.tif".data)] ∧
      ¬ specEvOrderedExceptAnchor
        [("HDR_AIS_f+0.tif".data), ("HDR_AIS_f+1.tif".data), ("HDR_AIS_f+2.tif".data),
          ("HDR_AIS_f+3.tif".data), ("HDR_AIS_f+4.tif".data), ("HDR_AIS_f+5.tif".data),
          ("HDR_AIS_f-1.tif".data)] := by
  refine ⟨selectBracket_histoMixed, ?_⟩
  intro hcon
  have hm : (([("HDR_AIS_f+0.tif".data), ("HDR_AIS_f+1.tif".data), ("HDR_AIS_f+2.tif".data),
      ("HDR_AIS_f+3.tif".data), ("HDR_AIS_f+4.tif".data), ("HDR_AIS_f+5.tif".data),
      ("HDR_AIS_f-1.tif".data)]).drop 1).map evShiftOfName = [1, 2, 3, 4, 5, -1] := by
    decide
  unfold specEvOrderedExceptAnchor at hcon
  rw [hm] at hcon
  rcases hcon with h | h
  · simp [List.chain'_cons] at h
  · simp [List.chain'_cons] at h

/-- C2: in the list handed to script synthesis, the head is lexicographically
least among the surviving files; in particular, whenever the zero-shift
rendering survives, it is the head (it is the lexicographic minimum of all
rendering names), and when it does not survive the head is simply the
lexicographically first surviving file. -/
theorem anchor_first_in_merge_order (rawfile : List Char) (histo : Int → List ℚ)
    (h : List Char) (t : List (List Char))
    (hok : selectBracket rawfile histo = Except.ok (h :: t)) :
    (shiftFileName (pySplitextStem rawfile) 0 ∈ h :: t →
      h = shiftFileName (pySplitextStem rawfile) 0) ∧
    ∀ f ∈ h :: t, pyStrLe h f = true := by
  have hlist : h :: t = pySorted (pySorted (bracketFileNames rawfile histo)) :=
    ((Except.ok.injEq _ _).mp ((selectBracket_eval rawfile histo).symm.trans hok)).symm
  have hsorted : List.Sorted pyStrLePr (h :: t) := by
    rw [hlist]
    exact List.sorted_insertionSort pyStrLePr _
  have hperm : List.Perm (h :: t) (bracketFileNames rawfile histo) := by
    rw [hlist]
    exact (List.perm_insertionSort pyStrLePr _).trans (List.perm_insertionSort pyStrLePr _)
  have hshape : ∀ f ∈ h :: t, ∃ s ∈ shifts, f = shiftFileName (pySplitextStem rawfile) s := by
    intro f hf
    have hfm : f ∈ bracketFileNames rawfile histo := hperm.subset hf
    unfold bracketFileNames at hfm
    obtain ⟨s, hs, heq⟩ := List.mem_map.mp hfm
    exact ⟨s, bracket_survivors_subset histo s hs, heq.symm⟩
  have hhead_le : ∀ f ∈ h :: t, pyStrLe h f = true := by
    intro f hf
    rcases List.mem_cons.mp hf with h1 | h1
    · rw [h1]
      exact pyStrLe_refl h
    · exact (List.sorted_cons.mp hsorted).1 f h1
  refine ⟨?_, hhead_le⟩
  intro hz
  obtain ⟨s, hs, hfh⟩ := hshape h (List.mem_cons_self h t)
  have hz_le_h : pyStrLe (shiftFileName (pySplitextStem rawfile) 0) h = true := by
    rw [hfh]
    exact zero_name_min _ hs
  exact pyStrLe_antisymm (hhead_le _ hz) hz_le_h

/-- Witness for C2 at the concrete mixed-histogram input: the zero-shift
rendering is in the bracket and is its head. -/
theorem anchor_first_witness :
    shiftFileName (pySplitextStem rawDemo) 0 ∈
      [("HDR_AIS_f+0.tif".data), ("HDR_AIS_f+1.tif".data), ("HDR_AIS_f+2.tif".data),
        ("HDR_AIS_f+3.tif".data), ("HDR_AIS_f+4.tif".data), ("HDR_AIS_f+5.tif".data),
        ("HDR_AIS_f-1.tif".data)] ∧
    ("HDR_AIS_f+0.tif".data) = shiftFileName (pySplitextStem rawDemo) 0 :=
  ⟨by decide,
    (anchor_first_in_merge_order rawDemo histoMixed _ _ selectBracket_histoMixed).1 (by decide)⟩

lemma scan1_all_right_clip (histo : Int → List ℚ)
    (hall : ∀ s ∈ shifts,
      is_right_edge_clipping (get_smoothed_image_histogram (histo s)) = true) :
    scan1 histo = shifts := by
  rw [scan1]
  have key : ∀ (todo : List Int),
      (∀ c ∈ todo, is_right_edge_clipping (get_smoothed_image_histogram (histo c)) = true) →
      ∀ surv : List Int,
        todo.foldl (scan1Step histo) (surv, false, false) = (surv, false, false) := by
    intro todo
    induction todo with
    | nil => intro _ surv; rfl
    | cons c todo' ih =>
      intro hc surv
      rw [List.foldl_cons, scan1Step_seek_clip _ _ _ (hc c (List.mem_cons_self c todo'))]
      exact ih (fun x hx => hc x (List.mem_cons_of_mem _ hx)) surv
  rw [key shifts.reverse (fun c hc => hall c (List.mem_reverse.mp hc)) shifts]

/-- C3 (amended): when every rendered candidate right-edge-clips, the
downward scan never finds a beginning and deletes nothing, and selection
still returns a non-empty bracket - the empty-bracket error is NOT raised. -/
theorem all_right_clipping_still_selects (rawfile : List Char) (histo : Int → List ℚ)
    (hall : ∀ s ∈ shifts,
      is_right_edge_clipping (get_smoothed_image_histogram (histo s)) = true) :
    scan1 histo = shifts ∧
      ∃ l, selectBracket rawfile histo = Except.ok l ∧ l ≠ [] := by
  refine ⟨scan1_all_right_clip histo hall, ?_⟩
  obtain ⟨l, h1, h2, _⟩ := selectBracket_ok_ne_nil rawfile histo
  exact ⟨l, h1, h2⟩

/-- Witness for the amended C3 at the all-right-clipping concrete input. -/
theorem all_right_clipping_still_selects_witness :
    (∀ s ∈ shifts,
      is_right_edge_clipping (get_smoothed_image_histogram (histoAllClip s)) = true) ∧
    (scan1 histoAllClip = shifts ∧
      ∃ l, selectBracket rawDemo histoAllClip = Except.ok l ∧ l ≠ []) :=
  ⟨fun s _ => allclip_right s,
    all_right_clipping_still_selects rawDemo histoAllClip (fun s _ => allclip_right s)⟩

/-- C3 counterexample: a concrete input on which EVERY candidate right-edge
clips, yet selection returns a (non-empty) bracket instead of raising the
empty-bracket error. -/
theorem all_right_clipping_no_error :
    (∀ s ∈ shifts,
      is_right_edge_clipping (get_smoothed_image_histogram (histoAllClip s)) = true) ∧
    selectBracket rawDemo histoAllClip = Except.ok [("HDR_AIS_f-5.tif".data)] :=
  ⟨fun s _ => allclip_right s, selectBracket_histoAllClip⟩

/-! ## Claims C4, C5, C9, C10, C6 -/


/-- C4, evaluated at the failing input: a batch whose first raw yields an
empty bracket.  massage_file_list raises, create_HDR_script catches the error
and returns None, and HDR_tonemap_from_raw then calls abspath(None), raising
a TypeError that nothing catches: zero raws are processed and the batch
aborts, regardless of how many raws were still pending. -/
theorem empty_bracket_aborts_batch (env : PyEnv) (rawfile : List Char)
    (rest : List (List Char × List (List Char))) :
    create_HDRs_from_raws env ((rawfile, []) :: rest) =
      (0, some ("TypeError: expected str, bytes or os.PathLike object, not NoneType")) :=
  rfl

/-- C5: the synthesized script text (and the script file name) depend on the
inputs and flags and on the filesystem realpath capability only - never on
the clock or any entropy source, so two calls with the same arguments are
byte-identical. -/
theorem script_synthesis_deterministic (HDR_input_files : List (List Char))
    (metadata_source_file : Option (List Char)) (delete_originals suppress_align : Bool)
    (env1 env2 : PyEnv) (hrp : env1.realpath = env2.realpath) :
    create_script_from_file_list HDR_input_files metadata_source_file delete_originals
        suppress_align env1 =
      create_script_from_file_list HDR_input_files metadata_source_file delete_originals
        suppress_align env2 := by
  unfold create_script_from_file_list
  rw [hrp]

/-- Witness for C5: two environments with the same realpath but different
clock and entropy yield the same script. -/
theorem script_synthesis_deterministic_witness :
    (PyEnv.mk id 0 0).realpath = (PyEnv.mk id 1 99).realpath ∧
      create_script_from_file_list [("a.jpg".data)] none false false (PyEnv.mk id 0 0) =
        create_script_from_file_list [("a.jpg".data)] none false false (PyEnv.mk id 1 99) :=
  ⟨rfl, script_synthesis_deterministic _ _ _ _ _ _ rfl⟩

/-- C9, evaluated at the failing input "DSC001.jpg": `lstrip('HDR_AIS_')`
strips the leading characters D, S (members of the character set
H,D,R,_,A,I,S) from a stem that does not carry the HDR_AIS_ prefix at all,
so the output basename is "C001_HDR", not the "DSC001_HDR" the claim (strip
the rendering-stage prefix) prescribes. -/
theorem output_basename_charset_lstrip :
    hdrOutputBasename ("DSC001.jpg".data) = ("C001_HDR.TIFF".data) ∧
      ("C001_HDR.TIFF".data) ≠ ("DSC001_HDR.TIFF".data) := by
  constructor
  · decide
  · decide

/-- C10: for every non-empty input list and every flag combination, the
synthesized script contains the fusion stage as exactly the text
`\nenfuse --output=<quoted output name> HDR_AIS*tif`; the stage names no
input file (it depends only on the head-derived output name) and is present
with the fixed glob even when suppress_align is true. -/
theorem fusion_stage_fixed_glob (f : List Char) (rest : List (List Char))
    (metadata_source_file : Option (List Char)) (delete_originals suppress_align : Bool)
    (env : PyEnv) :
    ∃ pre post,
      (create_script_from_file_list (f :: rest) metadata_source_file delete_originals
          suppress_align env).1 =
        pre ++ (("\nenfuse --output=".data) ++ shlexQuote (hdrOutputBasename f) ++
          (" HDR_AIS*tif".data)) ++ post := by
  refine ⟨script_header (hdrOutputBasename f) f ((f :: rest).getLastD []) suppress_align
      (pyPathSplitHead (env.realpath f)) ++
      (if suppress_align then [] else align_line (f :: rest)),
    convert_line (hdrOutputBasename f) ++ rm_output_line (hdrOutputBasename f) ++
      (match metadata_source_file with
       | some src => metadata_block src (hdrOutputBasename f)
       | none => []) ++
      cleanup_line delete_originals (f :: rest) ++ script_footer, ?_⟩
  unfold create_script_from_file_list enfuse_line
  simp [List.append_assoc]

/-- C6 counterexample: at a concrete input the live renderer
produce_shifted_tonemap emits only the dcraw invocation - it never writes
the synthetic ISO/EV tags the claim describes. -/
theorem renderer_writes_no_tags :
    ¬ specRendererWritesTags
      ((produce_shifted_tonemap rawDemo none none 0 true).2) none none 0 := by
  rintro ⟨dst, hmem⟩
  simp [produce_shifted_tonemap] at hmem

/-- C6 (amended): the synthetic ISO = base*2^shift and EV = base+shift
derivation, the ISO-100/EV-8 fallbacks with their warnings, and the
copy-tags-then-set-fields command order all live in the UNUSED function
copy_and_modify_ISO_and_Ev (unused_code.py); the live renderer only ever
invokes the raw decoder. -/
theorem iso_ev_derivation_unused (rawfile outfile : List Char)
    (base_ISO base_Ev : Option Int) (Ev_shift : Int) (darkframe_present : Bool) :
    (copy_and_modify_ISO_and_Ev rawfile outfile base_ISO base_Ev Ev_shift).1 =
        specSyntheticISO base_ISO Ev_shift ∧
      (copy_and_modify_ISO_and_Ev rawfile outfile base_ISO base_Ev Ev_shift).2.1 =
        specSyntheticEv base_Ev Ev_shift ∧
      ((copy_and_modify_ISO_and_Ev rawfile outfile base_ISO base_Ev Ev_shift).2.2.1 = true ↔
        base_ISO = none) ∧
      ((copy_and_modify_ISO_and_Ev rawfile outfile base_ISO base_Ev Ev_shift).2.2.2.1 = true ↔
        base_Ev = none) ∧
      (copy_and_modify_ISO_and_Ev rawfile outfile base_ISO base_Ev Ev_shift).2.2.2.2 =
        [ExtCall.exiftool_copy_tags rawfile outfile,
          ExtCall.exiftool_set_ISO_Ev (specSyntheticISO base_ISO Ev_shift)
            (specSyntheticEv base_Ev Ev_shift) outfile] ∧
      (produce_shifted_tonemap rawfile base_ISO base_Ev Ev_shift darkframe_present).2 =
        [ExtCall.dcraw rawfile
          (shiftFileName (pySplitextStem rawfile) Ev_shift) Ev_shift darkframe_present] := by
  cases base_ISO <;> cases base_Ev <;>
    simp [copy_and_modify_ISO_and_Ev, produce_shifted_tonemap, specSyntheticISO,
      specSyntheticEv, Option.isNone]

/-! ## Claim C7: idempotence of histogram smoothing

Smoothing can only lower the mean and raise the sample variance (at most a
quarter of the buckets can sit two standard deviations below the mean, so the
mass removed is small), hence the threshold `mean - 2*stdev` only moves down:
every bucket that survived the first pass survives the second, and zeroes stay
zero. -/

lemma sum_map_sq_expand (l : List ℚ) (c : ℚ) :
    (l.map (fun v => (v - c) ^ 2)).sum =
      (l.map (fun v => v ^ 2)).sum - 2 * c * l.sum + (l.length : ℚ) * c ^ 2 := by
  induction l with
  | nil => simp
  | cons a t ih =>
    simp only [List.map_cons, List.sum_cons, List.length_cons]
    rw [ih]
    push_cast
    ring

lemma pyMean_mul (l : List ℚ) (hn : (l.length : ℚ) ≠ 0) :
    (l.length : ℚ) * pyMean l = l.sum := by
  rw [pyMean]
  field_simp

lemma sum_sq_mean_le (l : List ℚ) (c : ℚ) (hn : 0 < (l.length : ℚ)) :
    (l.map (fun v => (v - pyMean l) ^ 2)).sum ≤ (l.map (fun v => (v - c) ^ 2)).sum := by
  have hs : (l.length : ℚ) * pyMean l = l.sum := pyMean_mul l (ne_of_gt hn)
  rw [sum_map_sq_expand, sum_map_sq_expand, ← hs]
  nlinarith [mul_nonneg (le_of_lt hn) (sq_nonneg (c - pyMean l))]

lemma sum_map_if_split (l : List ℚ) (p : ℚ → Bool) :
    (l.map (fun v => if p v then v else 0)).sum =
      l.sum - (l.filter (fun v => !p v)).sum := by
  induction l with
  | nil => simp
  | cons a t ih =>
    cases hpa : p a <;> simp [hpa, List.filter_cons, ih] <;> try ring

lemma sum_map_filter_le (l : List ℚ) (q : ℚ → Bool) (g : ℚ → ℚ)
    (hg : ∀ v ∈ l, 0 ≤ g v) :
    ((l.filter q).map g).sum ≤ (l.map g).sum := by
  induction l with
  | nil => simp
  | cons a t ih =>
    have hg' : ∀ v ∈ t, 0 ≤ g v := fun v hv => hg v (List.mem_cons_of_mem _ hv)
    cases hqa : q a
    · simp only [List.filter_cons, hqa, Bool.false_eq_true, if_false, List.map_cons,
        List.sum_cons]
      exact le_trans (ih hg') (le_add_of_nonneg_left (hg a (List.mem_cons_self _ _)))
    · simp only [List.filter_cons, hqa, if_true, List.map_cons, List.sum_cons]
      exact add_le_add_left (ih hg') _

lemma pySampleVar_mul (h : List ℚ) (hlen : h.length = 256) :
    pySampleVar h * 255 = (h.map (fun v => (v - pyMean h) ^ 2)).sum := by
  simp only [pySampleVar]
  rw [hlen]
  norm_num

/-- C7: histogram smoothing is idempotent: for every 256-bucket histogram
(non-negative pixel counts), smoothing an already-smoothed histogram yields it
unchanged. -/
theorem smoothing_idempotent (h : List ℚ) (hlen : h.length = 256)
    (hpos : ∀ v ∈ h, 0 ≤ v) :
    get_smoothed_image_histogram (get_smoothed_image_histogram h) =
      get_smoothed_image_histogram h := by
  have hn0 : (0 : ℚ) < (h.length : ℚ) := by rw [hlen]; norm_num
  set m := pyMean h with hm
  set S := pySampleVar h with hS
  have hsm : get_smoothed_image_histogram h =
      h.map (fun v => if keepB m S v then v else 0) := rfl
  set f : ℚ → ℚ := fun v => if keepB m S v then v else 0 with hf
  have hdropped : ∀ v ∈ h, keepB m S v = false → v ≤ m ∧ 4 * S ≤ (v - m) ^ 2 := by
    intro v _ hkf
    rw [keepB] at hkf
    simp only [Bool.or_eq_false_iff, decide_eq_false_iff_not, not_lt] at hkf
    refine ⟨hkf.1, ?_⟩
    calc 4 * S ≤ (m - v) ^ 2 := hkf.2
      _ = (v - m) ^ 2 := by ring
  set D := (h.filter (fun v => !keepB m S v)).sum with hD
  have hdropmem : ∀ v ∈ h.filter (fun v => !keepB m S v), v ∈ h ∧ keepB m S v = false := by
    intro v hv
    have h2 := List.mem_filter.mp hv
    exact ⟨h2.1, by simpa using h2.2⟩
  have hD0 : 0 ≤ D := by
    rw [hD]
    apply List.sum_nonneg
    intro v hv
    exact hpos v (List.mem_of_mem_filter hv)
  have hsum256 : (256 : ℚ) * m = h.sum := by
    have h1 := pyMean_mul h (ne_of_gt hn0)
    rw [hlen] at h1
    rw [hm]
    push_cast at h1
    exact h1
  have hm0 : 0 ≤ m := by
    rw [hm, pyMean]
    exact div_nonneg (List.sum_nonneg hpos) (Nat.cast_nonneg _)
  set FH := h.map f with hFH
  have hsum' : FH.sum = h.sum - D := by
    rw [hFH, hf, hD]
    exact sum_map_if_split h (fun v => keepB m S v)
  have hlen' : FH.length = 256 := by rw [hFH, List.length_map, hlen]
  set m' := pyMean FH with hm'
  set S' := pySampleVar FH with hS'
  have hm'le : m' ≤ m := by
    rw [hm', pyMean, hlen', hsum', hm, pyMean, hlen]
    push_cast
    rw [div_le_div_right (by norm_num : (0 : ℚ) < 256)]
    linarith
  have hSsq : S * 255 = (h.map (fun v => (v - m) ^ 2)).sum := by
    rw [hS, hm]
    exact pySampleVar_mul h hlen
  have hS'sq : S' * 255 = (FH.map (fun w => (w - m') ^ 2)).sum := by
    rw [hS', hm']
    exact pySampleVar_mul FH hlen'
  have hssq0 : 0 ≤ (h.map (fun v => (v - m) ^ 2)).sum := by
    apply List.sum_nonneg
    intro x hx
    obtain ⟨v, _, rfl⟩ := List.mem_map.mp hx
    exact sq_nonneg _
  have hssq'0 : 0 ≤ (FH.map (fun w => (w - m') ^ 2)).sum := by
    apply List.sum_nonneg
    intro x hx
    obtain ⟨v, _, rfl⟩ := List.mem_map.mp hx
    exact sq_nonneg _
  have hS0 : 0 ≤ S := by linarith
  have hS'0 : 0 ≤ S' := by linarith
  have hSS' : S ≤ S' := by
    rcases eq_or_lt_of_le hS0 with hSeq | hSpos
    · linarith
    · set k := (h.filter (fun v => !keepB m S v)).length with hk
      have hk4S : (k : ℚ) * (4 * S) ≤ S * 255 := by
        have h1 : ((h.filter (fun v => !keepB m S v)).map (fun v => (v - m) ^ 2)).sum ≤
            (h.map (fun v => (v - m) ^ 2)).sum :=
          sum_map_filter_le h _ _ (fun v _ => sq_nonneg _)
        have h3 := List.card_nsmul_le_sum
          ((h.filter (fun v => !keepB m S v)).map (fun v => (v - m) ^ 2)) (4 * S) ?side
        case side =>
          intro x hx
          obtain ⟨v, hv, rfl⟩ := List.mem_map.mp hx
          exact (hdropped v (hdropmem v hv).1 (hdropmem v hv).2).2
        rw [List.length_map, nsmul_eq_mul] at h3
        rw [hk]
        linarith
      have hkb : (k : ℚ) ≤ 255 / 4 := by nlinarith
      have hDk : D ≤ (k : ℚ) * m := by
        have h4 := List.sum_le_card_nsmul (h.filter (fun v => !keepB m S v)) m ?side2
        case side2 =>
          intro v hv
          exact (hdropped v (hdropmem v hv).1 (hdropmem v hv).2).1
        rw [nsmul_eq_mul] at h4
        rw [hD, hk]
        exact h4
      have hm'ge : (3 / 4) * m ≤ m' := by
        rw [hm', pyMean, hlen', hsum', ← hsum256]
        push_cast
        rw [le_div_iff (by norm_num : (0 : ℚ) < 256)]
        nlinarith [mul_nonneg (by linarith : (0 : ℚ) ≤ 255 / 4 - (k : ℚ)) hm0]
      have hpoint : ∀ v ∈ h, (v - m') ^ 2 ≤ (f v - m') ^ 2 := by
        intro v hv
        cases hkv : keepB m S v
        · have hfv : f v = 0 := by rw [hf]; simp [hkv]
          rw [hfv]
          have h1 := (hdropped v hv hkv).1
          have h2 := hpos v hv
          nlinarith
        · have hfv : f v = v := by rw [hf]; simp [hkv]
          rw [hfv]
      have hsum_point : (h.map (fun v => (v - m') ^ 2)).sum ≤
          (h.map (fun v => (f v - m') ^ 2)).sum :=
        List.sum_le_sum hpoint
      have hbias : (h.map (fun v => (v - m) ^ 2)).sum ≤
          (h.map (fun v => (v - m') ^ 2)).sum := by
        have hb := sum_sq_mean_le h m' hn0
        rw [← hm] at hb
        exact hb
      have hmm : (FH.map (fun w => (w - m') ^ 2)).sum =
          (h.map (fun v => (f v - m') ^ 2)).sum := by
        rw [hFH, List.map_map]
        rfl
      linarith
  have hpres : ∀ v, keepB m S v = true → keepB m' S' v = true := by
    intro v hkv
    rw [keepB] at hkv ⊢
    simp only [Bool.or_eq_true, decide_eq_true_eq] at hkv ⊢
    rcases hkv with h1 | h1
    · left
      exact lt_of_le_of_lt hm'le h1
    · rcases lt_or_le m' v with h2 | h2
      · left
        exact h2
      · right
        have h3 : (m' - v) ^ 2 ≤ (m - v) ^ 2 := by nlinarith
        linarith
  rw [hsm]
  have hstep : get_smoothed_image_histogram FH =
      FH.map (fun w => if keepB m' S' w then w else 0) := rfl
  rw [hstep, hFH, List.map_map]
  apply List.map_congr_left
  intro v hv
  simp only [Function.comp_apply]
  cases hkv : keepB m S v
  · have hfv : f v = 0 := by rw [hf]; simp [hkv]
    rw [hfv]
    exact ite_self 0
  · have hfv : f v = v := by rw [hf]; simp [hkv]
    rw [hfv, if_pos (hpres v hkv)]

/-- Fidelity of `keepB` to the source formula `v > mean - 2*stdev`. -/
lemma keepB_iff_threshold (m S v : ℚ) (hS : 0 ≤ S) :
    keepB m S v = true ↔ (m : ℝ) - 2 * Real.sqrt (S : ℝ) < (v : ℝ) := by
  rw [keepB]
  simp only [Bool.or_eq_true, decide_eq_true_eq]
  have hSR : (0 : ℝ) ≤ (S : ℝ) := by exact_mod_cast hS
  constructor
  · rintro (h1 | h1)
    · have h2 : (m : ℝ) < (v : ℝ) := by exact_mod_cast h1
      have h3 : 0 ≤ Real.sqrt (S : ℝ) := Real.sqrt_nonneg _
      linarith
    · have h2 : ((m : ℝ) - v) ^ 2 < 4 * (S : ℝ) := by exact_mod_cast h1
      have h3 : Real.sqrt (((m : ℝ) - v) ^ 2) < Real.sqrt (4 * (S : ℝ)) :=
        Real.sqrt_lt_sqrt (sq_nonneg _) h2
      rw [Real.sqrt_sq_eq_abs] at h3
      have h4 : Real.sqrt (4 * (S : ℝ)) = 2 * Real.sqrt (S : ℝ) := by
        rw [show (4 : ℝ) * (S : ℝ) = 2 ^ 2 * (S : ℝ) by ring,
          Real.sqrt_mul (by positivity), Real.sqrt_sq (by norm_num)]
      rw [h4] at h3
      have h5 : (m : ℝ) - v ≤ |(m : ℝ) - v| := le_abs_self _
      linarith
  · intro h1
    rcases lt_or_le m v with h2 | h2
    · left
      exact h2
    · right
      have h2R : (v : ℝ) ≤ (m : ℝ) := by exact_mod_cast h2
      have h3 : 0 ≤ (m : ℝ) - v := by linarith
      have h4 : (m : ℝ) - v < 2 * Real.sqrt (S : ℝ) := by linarith
      have h6 : (2 * Real.sqrt (S : ℝ)) ^ 2 = 4 * (S : ℝ) := by
        rw [mul_pow, Real.sq_sqrt hSR]
        norm_num
      have h5 : ((m : ℝ) - v) ^ 2 < 4 * (S : ℝ) := by
        nlinarith [Real.sqrt_nonneg (S : ℝ)]
      exact_mod_cast h5


/-- Witness for C7 at the concrete all-zero histogram. -/
theorem smoothing_idempotent_witness :
    ((List.replicate 256 (0 : ℚ)).length = 256 ∧
      (∀ v ∈ List.replicate 256 (0 : ℚ), 0 ≤ v)) ∧
    get_smoothed_image_histogram
        (get_smoothed_image_histogram (List.replicate 256 (0 : ℚ))) =
      get_smoothed_image_histogram (List.replicate 256 (0 : ℚ)) :=
  ⟨⟨by rw [List.length_replicate],
    fun v hv => (List.eq_of_mem_replicate hv).ge⟩,
    smoothing_idempotent _ (by rw [List.length_replicate])
      (fun v hv => (List.eq_of_mem_replicate hv).ge)⟩
